import Mathlib

/-!
Verification development for the PromptVault repository.

The development shallowly embeds the data model and the operations of the
repository: the template-variable engine of the bubble renderer
(extractVariables, replaceVariables, the copy-resolution workflow), the
storage service (createPromptVersion, loadPromptsAsync, savePromptAsync,
deletePromptAsync, exportData), the connection-status subscription of the
two API clients, the create-prompt route of the server, and the clipboard
utility. Content strings are embedded as lists of characters; JavaScript
records are embedded as optional-valued maps; asynchronous remote calls are embedded
by passing their outcome as an Except value; the callback-based listener
mechanism is embedded by returning the list of delivered notifications.
-/

namespace PromptVault


/-! ## Variable Template Engine (bubble/renderer/src/App.tsx) -/

/-- Character class of the regex name group: one or more characters that are
neither a closing brace nor a colon. -/
def isNameChar (c : Char) : Bool := !(c == '}') && !(c == ':')

/-- Character class of the regex default-value group: characters that are not
a closing brace. -/
def isDefaultChar (c : Char) : Bool := !(c == '}')

/-- One placeholder occurrence as produced by the regex:
the raw (untrimmed) name group and the raw optional default group. -/
structure TemplateVar where
  name : List Char
  defaultValue : Option (List Char)
deriving DecidableEq

/-- Embedding of JavaScript String.prototype.trim on character lists:
whitespace is removed from both ends. -/
def trimChars (l : List Char) : List Char :=
  ((l.dropWhile Char.isWhitespace).reverse.dropWhile Char.isWhitespace).reverse

/-- Attempt to match the placeholder regex at the very start of the input.
On success, returns the name group, the optional default group, and the
remainder of the input after the match. The regex is deterministic here:
the name is the maximal nonempty run of characters other than brace or
colon after the two opening braces; if a colon follows, the default is the
maximal run of non-brace characters; the match must close with two braces. -/
def parsePlaceholder (l : List Char) : Option (List Char × Option (List Char) × List Char) :=
  match l with
  | '{' :: '{' :: cs =>
    if (cs.takeWhile isNameChar).isEmpty then none
    else
      match cs.dropWhile isNameChar with
      | ':' :: ds =>
        (match ds.dropWhile isDefaultChar with
         | '}' :: '}' :: rest => some (cs.takeWhile isNameChar, some (ds.takeWhile isDefaultChar), rest)
         | _ => none)
      | '}' :: '}' :: rest => some (cs.takeWhile isNameChar, none, rest)
      | _ => none
  | _ => none

/-- The text a successful placeholder match consumed, reassembled. -/
def origText (m : TemplateVar) : List Char :=
  '{' :: '{' :: (m.name ++ (match m.defaultValue with
    | some d => ':' :: (d ++ ['}', '}'])
    | none => ['}', '}']))

/-- Scan loop over the content, fuelled by the content length: at each
position, try a placeholder match; on success record it and continue after
the match, otherwise advance one character. Each successful match consumes
at least five characters and a failed attempt consumes one, so a fuel equal
to the length of the input makes the fuel inexhaustible; this mirrors the
repeated exec of the global regex in the source. -/
def scanAux : Nat → List Char → List TemplateVar
  | 0, _ => []
  | _ + 1, [] => []
  | fuel + 1, c :: cs =>
    match parsePlaceholder (c :: cs) with
    | some (name, dflt, rest) => ⟨name, dflt⟩ :: scanAux fuel rest
    | none => scanAux fuel cs

/-- Every placeholder occurrence of the content, in scan order, untrimmed. -/
def scanPlaceholders (content : List Char) : List TemplateVar :=
  scanAux content.length content

/-- Embedding of the while loop of extractVariables: walk the matches in
order, keep a set of names already seen, and push an entry with the trimmed
name and trimmed default only for names not seen before
(bubble/renderer/src/App.tsx, extractVariables). -/
def extractLoop : List TemplateVar → List (List Char) → List TemplateVar
  | [], _ => []
  | m :: ms, seen =>
    if trimChars m.name ∈ seen then extractLoop ms seen
    else ⟨trimChars m.name, m.defaultValue.map trimChars⟩ ::
      extractLoop ms (trimChars m.name :: seen)

/-- extractVariables from bubble/renderer/src/App.tsx. -/
def extractVariables (content : List Char) : List TemplateVar :=
  extractLoop (scanPlaceholders content) []

/-- The replacement text the callback of replaceVariables produces for one
match: the value under the trimmed name when the map has one, otherwise the
literal placeholder rebuilt from the trimmed name with no default part. -/
def renderValue (values : List Char → Option (List Char)) (rawName : List Char) : List Char :=
  match values (trimChars rawName) with
  | some v => v
  | none => '{' :: '{' :: (trimChars rawName ++ ['}', '}'])

/-- Embedding of String.prototype.replace with the global placeholder regex:
non-matching characters are copied verbatim and each match is replaced by
the callback result (bubble/renderer/src/App.tsx, replaceVariables).
Fuelled like scanAux; with fuel zero the remaining input is copied, a case
never reached from replaceVariables. -/
def replaceAux (values : List Char → Option (List Char)) : Nat → List Char → List Char
  | 0, l => l
  | _ + 1, [] => []
  | fuel + 1, c :: cs =>
    match parsePlaceholder (c :: cs) with
    | some (name, _, rest) => renderValue values name ++ replaceAux values fuel rest
    | none => c :: replaceAux values fuel cs

/-- replaceVariables from bubble/renderer/src/App.tsx; the values record is
embedded as an optional-valued map, so an entry holding the empty string is distinct
from an absent entry, exactly as for a JavaScript record read with the
nullish-coalescing fallback. -/
def replaceVariables (content : List Char) (values : List Char → Option (List Char)) : List Char :=
  replaceAux values content.length content

/-- A segment of the content: either one literal character outside every
placeholder, or one placeholder occurrence. -/
inductive Seg where
  | lit : Char → Seg
  | ph : TemplateVar → Seg
deriving DecidableEq

/-- Segmentation of the content by the same scan as scanAux. With fuel zero
the remaining input is kept as literal characters. -/
def segsAux : Nat → List Char → List Seg
  | 0, l => l.map Seg.lit
  | _ + 1, [] => []
  | fuel + 1, c :: cs =>
    match parsePlaceholder (c :: cs) with
    | some (name, dflt, rest) => Seg.ph ⟨name, dflt⟩ :: segsAux fuel rest
    | none => Seg.lit c :: segsAux fuel cs

/-- Decomposition of the content into literal characters and placeholder
occurrences. -/
def segsOf (content : List Char) : List Seg :=
  segsAux content.length content

/-- Reassemble the original text of a segment list. -/
def segsText : List Seg → List Char
  | [] => []
  | Seg.lit c :: ss => c :: segsText ss
  | Seg.ph m :: ss => origText m ++ segsText ss

/-- Render a segment list under a values map: literal characters unchanged,
each placeholder rewritten by renderValue. -/
def renderSegs (values : List Char → Option (List Char)) : List Seg → List Char
  | [] => []
  | Seg.lit c :: ss => c :: renderSegs values ss
  | Seg.ph m :: ss => renderValue values m.name ++ renderSegs values ss

/-- The placeholder occurrences of a segment list, in order. -/
def phVars : List Seg → List TemplateVar
  | [] => []
  | Seg.lit _ :: ss => phVars ss
  | Seg.ph m :: ss => m :: phVars ss

/-- Trim the name and the default of one raw match, as extractVariables does
when it records an entry. -/
def trimVar (m : TemplateVar) : TemplateVar :=
  ⟨trimChars m.name, m.defaultValue.map trimChars⟩

/-- Keep, for each name, only the first entry carrying it: the head is kept
and every later entry with the same name is discarded before recursing.
This is the specification-side reading of deduplication by first appearance
with the first default winning. -/
def dedupByName : List TemplateVar → List TemplateVar
  | [] => []
  | v :: vs => v :: dedupByName (vs.filter (fun w => w.name ≠ v.name))
termination_by l => l.length
decreasing_by
  simp only [List.length_cons]
  exact Nat.lt_succ_of_le (List.length_filter_le _ _)

/-- Concrete content whose single placeholder has an untrimmed name and no
default part. -/
def cexContent : List Char := ['H', 'i', ' ', '{', '{', ' ', 'a', ' ', '}', '}']

/-! ## Clipboard Resolver (bubble/renderer/src/App.tsx, handleCopy and
handleCopyWithVariables) -/

/-- Outcome of handleCopy: either a direct clipboard write of the text, or
the variable dialog opened with its initial values. -/
inductive CopyAction where
  | copied : List Char → CopyAction
  | openedDialog : List (List Char × List Char) → CopyAction
deriving DecidableEq

/-- JavaScript defaultValue-or-empty: an absent default and an empty default
both give the empty string, any other default gives itself. -/
def jsOrEmptyList (d : Option (List Char)) : List Char :=
  match d with
  | some s => if s.isEmpty then [] else s
  | none => []

/-- The initial values handleCopy builds for the dialog: one entry per
extracted variable, holding its default or the empty string. -/
def initialValuesOf (vars : List TemplateVar) : List (List Char × List Char) :=
  vars.map (fun v => (v.name, jsOrEmptyList v.defaultValue))

/-- handleCopy from bubble/renderer/src/App.tsx: with at least one variable
the dialog is opened with the initial values; with none the content itself
is copied. -/
def handleCopy (content : List Char) : CopyAction :=
  if 0 < (extractVariables content).length then
    CopyAction.openedDialog (initialValuesOf (extractVariables content))
  else CopyAction.copied content

/-- handleCopyWithVariables from bubble/renderer/src/App.tsx: the text that
reaches the clipboard after the dialog completes. -/
def handleCopyWithVariables (content : List Char)
    (values : List Char → Option (List Char)) : List Char :=
  replaceVariables content values

/-- The complete copy interaction: run handleCopy; a direct copy writes the
content; an opened dialog consults the dialog collaborator, which returns
either completed values (leading to handleCopyWithVariables) or a
cancellation (the close button), after which nothing is written. The
returned option is the clipboard write: none means no write occurred. -/
def copyResolution (content : List Char)
    (dialog : List (List Char × List Char) → Option (List Char → Option (List Char))) :
    Option (List Char) :=
  match handleCopy content with
  | CopyAction.copied text => some text
  | CopyAction.openedDialog init =>
    match dialog init with
    | some values => some (handleCopyWithVariables content values)
    | none => none

/-! ## Data model (bubble/renderer/src/api.ts interfaces) -/

/-- One historical snapshot of a prompt. -/
structure PromptVersion where
  id : String
  title : String
  content : String
  savedAt : Nat
deriving DecidableEq

/-- A saved prompt. The interface declares every field, so the embedding is
a total record; folderId none embeds the null reference. -/
structure Prompt where
  id : String
  title : String
  content : String
  tags : List String
  isFavorite : Bool
  isPinned : Bool
  folderId : Option String
  createdAt : Nat
  updatedAt : Nat
  versions : List PromptVersion
deriving DecidableEq

/-- A folder. -/
structure Folder where
  id : String
  name : String
  icon : String
  color : String
  createdAt : Nat
deriving DecidableEq

/-! ## Storage service (unnamed part holding the API-backed storage
service) -/

/-- createPromptVersion from the storage service: snapshot the current title
and content, put the snapshot first, and keep only the first five entries.
The source reads the clock twice (snapshot id and savedAt); both reads are
embedded as the same instant now. -/
def createPromptVersion (now : Nat) (p : Prompt) : Prompt :=
  { p with versions :=
      ({ id := toString now, title := p.title, content := p.content,
         savedAt := now } :: p.versions).take 5 }

/-- Concrete prompt with five stored snapshots, for the C4 witness. -/
def fiveVersionPrompt : Prompt :=
  ⟨"p", "t", "c", [], false, false, none, 0, 0,
    [⟨"5", "t5", "c5", 5⟩, ⟨"4", "t4", "c4", 4⟩, ⟨"3", "t3", "c3", 3⟩,
     ⟨"2", "t2", "c2", 2⟩, ⟨"1", "t1", "c1", 1⟩]⟩

/-- Spread of a total record over the defaults record: every field is taken
from the second operand, so merging with defaults is the identity on the
embedded total Prompt. -/
def mergeDefaults (defaults p : Prompt) : Prompt :=
  { id := p.id, title := p.title, content := p.content, tags := p.tags,
    isFavorite := p.isFavorite, isPinned := p.isPinned,
    folderId := p.folderId, createdAt := p.createdAt,
    updatedAt := p.updatedAt, versions := p.versions }

/-- loadPromptsAsync from the storage service. The remote fetch outcome is
passed as an Except value; the try branch caches the fetched set and
returns it merged over the defaults record, and the catch branch returns
the cached set merged over the defaults, leaving the cache untouched. The
pair returned is (the list given to the caller, the cache after the call);
returning a pair embeds that the catch branch swallows the failure. -/
def loadPromptsAsync (remote : Except Unit (List Prompt)) (cache : List Prompt)
    (defaults : Prompt) : List Prompt × List Prompt :=
  match remote with
  | Except.ok prompts => (prompts.map (mergeDefaults defaults), prompts)
  | Except.error _ => (cache.map (mergeDefaults defaults), cache)

/-- Concrete prompts for the storage-service witnesses. -/
def promptA : Prompt := ⟨"a", "t", "c", [], false, false, none, 0, 0, []⟩

def promptB : Prompt := ⟨"b", "t", "c", [], false, false, none, 0, 0, []⟩

def blankPrompt : Prompt := ⟨"", "", "", [], false, false, none, 0, 0, []⟩

/-- Upsert by id into the cache as the storage service does: replace the
first entry whose id matches, otherwise push the entity at the end. -/
def upsertById : List Prompt → Prompt → List Prompt
  | [], saved => [saved]
  | q :: qs, saved =>
    if q.id = saved.id then saved :: qs else q :: upsertById qs saved

/-- savePromptAsync from the storage service: pick update or create by
whether the cache holds the id (the outcome of the picked remote call is
passed in as an Except value); a failure is returned to the caller with
the cache untouched, a success upserts the server-returned entity into the
cache and returns it. The pair is (outcome for the caller, cache after the
call). -/
def savePromptAsync (updateRes createRes : Except Unit Prompt)
    (cache : List Prompt) (p : Prompt) : Except Unit Prompt × List Prompt :=
  match (if cache.any (fun q => q.id == p.id) then updateRes else createRes) with
  | Except.error e => (Except.error e, cache)
  | Except.ok saved => (Except.ok saved, upsertById cache saved)

/-- deletePromptAsync from the storage service: a remote failure is returned
to the caller with the cache untouched; a success removes the entry with
the id from the cache. -/
def deletePromptAsync (deleteRes : Except Unit Unit) (cache : List Prompt)
    (id : String) : Except Unit Unit × List Prompt :=
  match deleteRes with
  | Except.error e => (Except.error e, cache)
  | Except.ok _ => (Except.ok (), cache.filter (fun q => !(q.id == id)))

/-! ## Connection status subscriptions (unnamed part holding the API
client service, and bubble/renderer/src/api.ts) -/

/-- Connection state of the health-check monitor. -/
inductive ConnectionStatus where
  | connected
  | disconnected
  | checking
deriving DecidableEq

/-- State of one status broadcaster: current status and the registered
listeners, identified by plain numbers. -/
structure MonitorState where
  status : ConnectionStatus
  listeners : List Nat
deriving DecidableEq

namespace ApiClient

/-- onConnectionStatusChange of the bubble ApiClient class: push the
listener, then invoke it once with the current status. The second component
is the list of notifications delivered during the call. -/
def onConnectionStatusChange (s : MonitorState) (lid : Nat) :
    MonitorState × List (Nat × ConnectionStatus) :=
  ({ s with listeners := s.listeners ++ [lid] }, [(lid, s.status)])

end ApiClient

namespace ApiService

/-- onConnectionStatusChange of the web API client service module: push the
listener and return; no notification is delivered during registration. -/
def onConnectionStatusChange (s : MonitorState) (lid : Nat) :
    MonitorState × List (Nat × ConnectionStatus) :=
  ({ s with listeners := s.listeners ++ [lid] }, [])

end ApiService

/-- setConnectionStatus, identical in both clients: when the status
changes, store it and notify every registered listener; when it is
unchanged, do nothing. The second component is the list of delivered
notifications. -/
def setConnectionStatus (s : MonitorState) (status : ConnectionStatus) :
    MonitorState × List (Nat × ConnectionStatus) :=
  if s.status = status then (s, [])
  else ({ s with status := status }, s.listeners.map (fun l => (l, status)))

/-! ## Export envelope (unnamed part holding the storage service) -/

/-- Storage format version of the storage service. -/
def CURRENT_VERSION : Nat := 2

/-- The export envelope. -/
structure ExportData where
  version : Nat
  exportedAt : Nat
  prompts : List Prompt
  folders : List Folder
deriving DecidableEq

/-- exportData from the storage service: it takes the prompts and folders
arrays as arguments and builds the envelope from them and the clock; the
source then serializes this envelope to a JSON string, a step abstracted
here. It performs no read of the cache or of the remote store. -/
def exportData (now : Nat) (prompts : List Prompt) (folders : List Folder) :
    ExportData :=
  { version := CURRENT_VERSION, exportedAt := now, prompts := prompts,
    folders := folders }

/-- The local cache contents, for stating what the claim expects exportData
to read. -/
structure CacheState where
  prompts : List Prompt
  folders : List Folder
deriving DecidableEq

/-- Modelled from the spec: the claim's reading of exportData as an
operation that reads the current local cache and wraps it in the envelope.
No such function exists in the source; this definition follows the words of
the specification so the source's exportData can be compared against it. -/
def exportDataClaimed (now : Nat) (cache : CacheState) : ExportData :=
  { version := 2, exportedAt := now, prompts := cache.prompts,
    folders := cache.folders }

/-! ## Server create-prompt route (server/src/api.ts) -/

/-- The request body of the create-prompt route: every field may be absent.
A present folderId may itself be the null reference. -/
structure CreateBody where
  id : Option String
  title : Option String
  content : Option String
  tags : Option (List String)
  isFavorite : Option Bool
  isPinned : Option Bool
  folderId : Option (Option String)
  createdAt : Option Nat
  updatedAt : Option Nat
  versions : Option (List PromptVersion)
deriving DecidableEq

/-- JavaScript logical-or defaulting for a string field: an absent or empty
value falls back to the default. -/
def jsOrString (v : Option String) (d : String) : String :=
  match v with
  | some s => if s = "" then d else s
  | none => d

/-- JavaScript logical-or defaulting for a number field: an absent or zero
value falls back to the default. -/
def jsOrNat (v : Option Nat) (d : Nat) : Nat :=
  match v with
  | some n => if n = 0 then d else n
  | none => d

/-- JavaScript logical-or defaulting for a boolean field against false. -/
def jsOrFalse (v : Option Bool) : Bool :=
  match v with
  | some b => b
  | none => false

/-- JavaScript folderId-or-null: absent, null and empty-string folderId all
become null. -/
def jsOrNull (v : Option (Option String)) : Option String :=
  match v with
  | some (some s) => if s = "" then none else some s
  | some none => none
  | none => none

/-- Modelled from the spec: the database module (server/src/database) is
not under the sources; the specification treats it as a plain row store
accessed via simple CRUD calls whose create returns the stored entity, so
its createPrompt is embedded as returning its argument. -/
def dbCreatePrompt (p : Prompt) : Prompt := p

/-- The create-prompt route of server/src/api.ts: build the prompt from the
request body, defaulting every absent (or JavaScript-falsy) field, store
it, and answer 201 with the created prompt. -/
def createPromptRoute (now : Nat) (body : CreateBody) : Nat × Prompt :=
  (201, dbCreatePrompt
    { id := jsOrString body.id (toString now),
      title := jsOrString body.title ("New Prompt"),
      content := jsOrString body.content (""),
      tags := body.tags.getD [],
      isFavorite := jsOrFalse body.isFavorite,
      isPinned := jsOrFalse body.isPinned,
      folderId := jsOrNull body.folderId,
      createdAt := jsOrNat body.createdAt now,
      updatedAt := jsOrNat body.updatedAt now,
      versions := body.versions.getD [] })

/-- The empty request body. -/
def emptyBody : CreateBody :=
  ⟨none, none, none, none, none, none, none, none, none, none⟩

/-! ## Clipboard utility (unnamed part holding the clipboard helper) -/

/-- The environment the clipboard helper runs in: whether the asynchronous
clipboard interface exists, whether its write succeeds, whether the
selection-based fallback throws, and what the legacy copy command
reports. -/
structure ClipboardEnv where
  hasApi : Bool
  apiOk : Bool
  fallbackThrows : Bool
  execOk : Bool
deriving DecidableEq

/-- The two tiers the helper can attempt. -/
inductive ClipboardTier where
  | api
  | fallback
deriving DecidableEq

/-- The selection-based fallback tier: false when the DOM manipulation
throws, otherwise the report of the legacy copy command. -/
def fallbackCopy (env : ClipboardEnv) : Bool :=
  if env.fallbackThrows then false else env.execOk

/-- copyToClipboard from the clipboard utility: an empty text returns false
at once; otherwise the asynchronous interface is tried first when present,
and the fallback tier only when the first tier is absent or failed. The
second component lists the tiers attempted, in order. -/
def copyToClipboard (env : ClipboardEnv) (text : String) :
    Bool × List ClipboardTier :=
  if text = "" then (false, [])
  else if env.hasApi then
    if env.apiOk then (true, [ClipboardTier.api])
    else (fallbackCopy env, [ClipboardTier.api, ClipboardTier.fallback])
  else (fallbackCopy env, [ClipboardTier.fallback])

/-- Success of the first tier: the asynchronous interface exists and its
write succeeds. -/
def apiTierSucceeds (env : ClipboardEnv) : Bool := env.hasApi && env.apiOk

/-- Success of the second tier: the DOM fallback does not throw and the
legacy copy command reports success. -/
def fallbackTierSucceeds (env : ClipboardEnv) : Bool :=
  !env.fallbackThrows && env.execOk

/-! ## Theorems -/

theorem parsePlaceholder_origText {l n r : List Char} {d : Option (List Char)}
    (h : parsePlaceholder l = some (n, d, r)) : l = origText ⟨n, d⟩ ++ r := by
  unfold parsePlaceholder at h
  split at h
  case h_2 => simp at h
  rename_i cs
  split at h
  case isTrue => simp at h
  rename_i hne
  have h1 : cs.takeWhile isNameChar ++ cs.dropWhile isNameChar = cs :=
    List.takeWhile_append_dropWhile isNameChar cs
  split at h
  · rename_i ds hds
    have h2 : ds.takeWhile isDefaultChar ++ ds.dropWhile isDefaultChar = ds :=
      List.takeWhile_append_dropWhile isDefaultChar ds
    split at h
    · rename_i rest hrest
      simp only [Option.some.injEq, Prod.mk.injEq] at h
      obtain ⟨rfl, rfl, rfl⟩ := h
      rw [hrest] at h2
      rw [hds] at h1
      simp only [origText, List.cons_append, List.append_assoc]
      conv_lhs => rw [← h1, ← h2]
      simp
    · simp at h
  · rename_i rest hds
    simp only [Option.some.injEq, Prod.mk.injEq] at h
    obtain ⟨rfl, rfl, rfl⟩ := h
    rw [hds] at h1
    simp only [origText, List.cons_append, List.append_assoc]
    conv_lhs => rw [← h1]
    simp
  · simp at h

theorem parsePlaceholder_length {l n r : List Char} {d : Option (List Char)}
    (h : parsePlaceholder l = some (n, d, r)) : r.length < l.length := by
  have := parsePlaceholder_origText h
  subst this
  simp [origText]
  omega

theorem segsText_map_lit (l : List Char) : segsText (l.map Seg.lit) = l := by
  induction l with
  | nil => rfl
  | cons c cs ih => simp [segsText, ih]

theorem renderSegs_map_lit (values : List Char → Option (List Char)) (l : List Char) :
    renderSegs values (l.map Seg.lit) = l := by
  induction l with
  | nil => rfl
  | cons c cs ih => simp [renderSegs, ih]

theorem phVars_map_lit (l : List Char) : phVars (l.map Seg.lit) = [] := by
  induction l with
  | nil => rfl
  | cons c cs ih => simp [phVars, ih]

theorem segsText_segsAux (fuel : Nat) (l : List Char) :
    segsText (segsAux fuel l) = l := by
  induction fuel generalizing l with
  | zero => exact segsText_map_lit l
  | succ fuel ih =>
    match l with
    | [] => rfl
    | c :: cs =>
      rw [segsAux]
      cases hp : parsePlaceholder (c :: cs) with
      | none => simp [segsText, ih]
      | some v =>
        obtain ⟨name, dflt, rest⟩ := v
        simp only [segsText, ih]
        exact (parsePlaceholder_origText hp).symm

theorem replaceAux_renderSegs (values : List Char → Option (List Char))
    (fuel : Nat) (l : List Char) :
    replaceAux values fuel l = renderSegs values (segsAux fuel l) := by
  induction fuel generalizing l with
  | zero => exact (renderSegs_map_lit values l).symm
  | succ fuel ih =>
    match l with
    | [] => rfl
    | c :: cs =>
      rw [segsAux, replaceAux]
      cases hp : parsePlaceholder (c :: cs) with
      | none => simp [renderSegs, ih]
      | some v =>
        obtain ⟨name, dflt, rest⟩ := v
        simp [renderSegs, ih]

theorem phVars_segsAux (fuel : Nat) (l : List Char) :
    phVars (segsAux fuel l) = scanAux fuel l := by
  induction fuel generalizing l with
  | zero => exact phVars_map_lit l
  | succ fuel ih =>
    match l with
    | [] => rfl
    | c :: cs =>
      rw [segsAux, scanAux]
      cases hp : parsePlaceholder (c :: cs) with
      | none => simp [phVars, ih]
      | some v =>
        obtain ⟨name, dflt, rest⟩ := v
        simp [phVars, ih]

theorem dedupByName_sublist (l : List TemplateVar) :
    List.Sublist (dedupByName l) l := by
  match l with
  | [] => simp [dedupByName]
  | v :: vs =>
    rw [dedupByName]
    refine List.Sublist.cons₂ v ?_
    exact (dedupByName_sublist (vs.filter (fun w => w.name ≠ v.name))).trans
      (List.filter_sublist vs)
termination_by l.length
decreasing_by
  simp only [List.length_cons]
  exact Nat.lt_succ_of_le (List.length_filter_le _ _)

theorem dedupByName_name_nodup (l : List TemplateVar) :
    ((dedupByName l).map TemplateVar.name).Nodup := by
  match l with
  | [] => simp [dedupByName]
  | v :: vs =>
    rw [dedupByName]
    simp only [List.map_cons, List.nodup_cons]
    constructor
    · intro hmem
      obtain ⟨w, hw, hwname⟩ := List.mem_map.mp hmem
      have hsub := (dedupByName_sublist (vs.filter (fun w => w.name ≠ v.name))).subset hw
      have hne := List.of_mem_filter hsub
      simp only [decide_eq_true_eq] at hne
      exact hne hwname
    · exact dedupByName_name_nodup (vs.filter (fun w => w.name ≠ v.name))
termination_by l.length
decreasing_by
  simp only [List.length_cons]
  exact Nat.lt_succ_of_le (List.length_filter_le _ _)

theorem extractLoop_eq (ms : List TemplateVar) (seen : List (List Char)) :
    extractLoop ms seen
      = dedupByName ((ms.map trimVar).filter (fun w => w.name ∉ seen)) := by
  induction ms generalizing seen with
  | nil => simp [extractLoop, dedupByName]
  | cons m ms ih =>
    by_cases hm : trimChars m.name ∈ seen
    · rw [extractLoop, if_pos hm]
      simp only [List.map_cons, List.filter_cons, trimVar, hm, not_true,
        decide_False, if_false]
      exact ih seen
    · rw [extractLoop, if_neg hm]
      simp only [List.map_cons, List.filter_cons, trimVar, hm, not_false_iff,
        decide_True, if_true]
      rw [dedupByName]
      congr 1
      rw [ih (trimChars m.name :: seen), List.filter_filter]
      apply congrArg dedupByName
      apply List.filter_congr
      intro w _
      by_cases h1 : w.name ∈ seen <;> by_cases h2 : w.name = trimChars m.name <;>
        simp [h1, h2, List.mem_cons]

/-- C1: for every content string, extractVariables returns one entry per
distinct trimmed placeholder name, in order of the name's first appearance
in the content, and the defaultValue recorded for a name is the trimmed
default from that first occurrence; later occurrences of the same name add
no entry and change no recorded default. Formally: extractVariables equals
the first-occurrence deduplication of the in-order match list of the
content, its names are pairwise distinct, and it is an order-preserving
subsequence of that match list. -/
theorem extractVariables_first_occurrence (content : List Char) :
    extractVariables content = dedupByName ((scanPlaceholders content).map trimVar)
    ∧ ((extractVariables content).map TemplateVar.name).Nodup
    ∧ List.Sublist (extractVariables content) ((scanPlaceholders content).map trimVar) := by
  have h : extractVariables content
      = dedupByName ((scanPlaceholders content).map trimVar) := by
    have h0 := extractLoop_eq (scanPlaceholders content) []
    simpa [extractVariables] using h0
  refine ⟨h, ?_, ?_⟩
  · rw [h]
    exact dedupByName_name_nodup _
  · rw [h]
    exact dedupByName_sublist _

/-- C2 (amended): replaceVariables rewrites exactly the placeholder
occurrences of the content and nothing else: the content decomposes into
literal characters and placeholder occurrences (the decomposition
reassembles to the content, and its placeholders are exactly the scanner's
matches in order), and the result renders every literal unchanged while
each placeholder becomes the mapped value of its trimmed name when the map
has an entry (an empty-string entry included), and otherwise the literal
placeholder rebuilt from the trimmed name with the default portion
stripped. -/
theorem replaceVariables_spec (content : List Char)
    (values : List Char → Option (List Char)) :
    replaceVariables content values = renderSegs values (segsOf content)
    ∧ segsText (segsOf content) = content
    ∧ phVars (segsOf content) = scanPlaceholders content :=
  ⟨replaceAux_renderSegs values content.length content,
   segsText_segsAux content.length content,
   phVars_segsAux content.length content⟩

/-- C2 counterexample: the content has exactly one placeholder and it
carries no default part, yet replaceVariables under the empty values
map does not return the content unchanged: the whitespace inside the
placeholder name is trimmed away in the re-emitted placeholder, so the
claim that only default parts are dropped and nothing else changes
fails at this input. -/
theorem replaceVariables_empty_map_not_identity :
    scanPlaceholders cexContent = [⟨[' ', 'a', ' '], none⟩]
    ∧ replaceVariables cexContent (fun _ => none)
        = ['H', 'i', ' ', '{', '{', 'a', '}', '}']
    ∧ ['H', 'i', ' ', '{', '{', 'a', '}', '}'] ≠ cexContent := by decide

theorem jsOrEmptyList_eq_getD (d : Option (List Char)) :
    jsOrEmptyList d = d.getD [] := by
  cases d with
  | none => rfl
  | some s => cases s <;> simp [jsOrEmptyList]

/-- C3: with no variables the content goes to the clipboard directly and the
dialog is never consulted (the outcome is the same for every dialog
collaborator); with variables the dialog is opened with one initial value
per variable, namely its default or the empty string; on completion the
clipboard receives replaceVariables of the content under the returned
values; on cancellation no clipboard write occurs. -/
theorem copyResolution_spec (content : List Char)
    (dialog : List (List Char × List Char) → Option (List Char → Option (List Char))) :
    (extractVariables content = [] → copyResolution content dialog = some content)
    ∧ (extractVariables content ≠ [] →
        handleCopy content = CopyAction.openedDialog
          ((extractVariables content).map (fun v => (v.name, v.defaultValue.getD [])))
        ∧ (∀ values,
            dialog ((extractVariables content).map
              (fun v => (v.name, v.defaultValue.getD []))) = some values →
            copyResolution content dialog = some (replaceVariables content values))
        ∧ (dialog ((extractVariables content).map
              (fun v => (v.name, v.defaultValue.getD []))) = none →
            copyResolution content dialog = none)) := by
  have hinit : initialValuesOf (extractVariables content)
      = (extractVariables content).map (fun v => (v.name, v.defaultValue.getD [])) := by
    unfold initialValuesOf
    have hf : (fun v : TemplateVar => (v.name, jsOrEmptyList v.defaultValue))
        = fun v : TemplateVar => (v.name, v.defaultValue.getD []) :=
      funext fun v => by rw [jsOrEmptyList_eq_getD]
    rw [hf]
  constructor
  · intro h
    simp [copyResolution, handleCopy, h]
  · intro h
    have hlen : 0 < (extractVariables content).length := List.length_pos.mpr h
    refine ⟨?_, ?_, ?_⟩
    · rw [handleCopy, if_pos hlen, hinit]
    · intro values hv
      simp [copyResolution, handleCopy, hlen, hinit, hv, handleCopyWithVariables]
    · intro hv
      simp [copyResolution, handleCopy, hlen, hinit, hv]

/-- Witness for C3 at concrete inputs: a content with no placeholder is
copied directly, and a content with one placeholder goes through the dialog
and receives the substituted text. -/
theorem copyResolution_spec_witness :
    copyResolution ['h'] (fun _ => none) = some ['h']
    ∧ copyResolution ['{', '{', 'a', '}', '}']
        (fun _ => some (fun _ => some ['v'])) = some ['v'] := by
  constructor
  · exact (copyResolution_spec ['h'] (fun _ => none)).1 (by decide)
  · have h := (copyResolution_spec ['{', '{', 'a', '}', '}']
      (fun _ => some (fun _ => some ['v']))).2 (by decide)
    rw [h.2.1 (fun _ => some ['v']) rfl]
    decide

/-- C4: createPromptVersion puts a snapshot of the current title and content
first, followed by the previous versions, truncated to at most five
entries; on a prompt that already has five versions the result has exactly
five versions with the oldest (positionally last) snapshot evicted, and
every other field of the prompt is unchanged. -/
theorem createPromptVersion_spec (now : Nat) (p : Prompt) :
    (createPromptVersion now p).versions
      = ({ id := toString now, title := p.title, content := p.content,
           savedAt := now } :: p.versions).take 5
    ∧ (createPromptVersion now p).versions.length ≤ 5
    ∧ (p.versions.length = 5 →
        (createPromptVersion now p).versions.length = 5
        ∧ (createPromptVersion now p).versions
            = { id := toString now, title := p.title, content := p.content,
                savedAt := now } :: p.versions.take 4)
    ∧ (createPromptVersion now p).id = p.id
    ∧ (createPromptVersion now p).title = p.title
    ∧ (createPromptVersion now p).content = p.content
    ∧ (createPromptVersion now p).tags = p.tags
    ∧ (createPromptVersion now p).isFavorite = p.isFavorite
    ∧ (createPromptVersion now p).isPinned = p.isPinned
    ∧ (createPromptVersion now p).folderId = p.folderId
    ∧ (createPromptVersion now p).createdAt = p.createdAt
    ∧ (createPromptVersion now p).updatedAt = p.updatedAt := by
  refine ⟨rfl, ?_, ?_, rfl, rfl, rfl, rfl, rfl, rfl, rfl, rfl, rfl⟩
  · simp [createPromptVersion]
  · intro h5
    constructor
    · simp [createPromptVersion, h5]
    · simp [createPromptVersion, List.take_succ_cons]

/-- Witness for C4: a prompt already holding five snapshots keeps exactly
five, the newest first and the oldest gone. -/
theorem createPromptVersion_spec_witness :
    fiveVersionPrompt.versions.length = 5
    ∧ (createPromptVersion 6 fiveVersionPrompt).versions
        = [⟨"6", "t", "c", 6⟩, ⟨"5", "t5", "c5", 5⟩, ⟨"4", "t4", "c4", 4⟩,
           ⟨"3", "t3", "c3", 3⟩, ⟨"2", "t2", "c2", 2⟩] := by
  refine ⟨by decide, ?_⟩
  have h := (createPromptVersion_spec 6 fiveVersionPrompt).2.2.1 (by decide)
  rw [h.2]
  decide

theorem mergeDefaults_eq (defaults p : Prompt) : mergeDefaults defaults p = p := rfl

/-- C5: when the remote fetch succeeds the cache is overwritten with the
fetched set and that set is returned; when it fails the call still returns
normally with the most recently cached set, and the cache is unchanged. -/
theorem loadPromptsAsync_spec (remote : Except Unit (List Prompt))
    (cache : List Prompt) (defaults : Prompt) :
    (∀ prompts, remote = Except.ok prompts →
      loadPromptsAsync remote cache defaults = (prompts, prompts))
    ∧ (∀ e, remote = Except.error e →
      loadPromptsAsync remote cache defaults = (cache, cache)) := by
  have hmap : ∀ l : List Prompt, l.map (mergeDefaults defaults) = l := by
    intro l
    have hf : mergeDefaults defaults = fun p => p :=
      funext fun p => mergeDefaults_eq defaults p
    rw [hf, List.map_id']
  constructor
  · intro prompts h
    subst h
    simp [loadPromptsAsync, hmap]
  · intro e h
    subst h
    simp [loadPromptsAsync, hmap]

/-- Witness for C5: a successful fetch replaces an older cache; a failed
fetch returns the cached set unchanged. -/
theorem loadPromptsAsync_spec_witness :
    loadPromptsAsync (Except.ok [promptA]) [] blankPrompt = ([promptA], [promptA])
    ∧ loadPromptsAsync (Except.error ()) [promptB] blankPrompt
        = ([promptB], [promptB]) := by
  constructor
  · exact (loadPromptsAsync_spec _ _ _).1 _ rfl
  · exact (loadPromptsAsync_spec _ _ _).2 () rfl

theorem upsertById_absent (cache : List Prompt) (saved : Prompt)
    (h : saved.id ∉ cache.map Prompt.id) :
    upsertById cache saved = cache ++ [saved] := by
  induction cache with
  | nil => rfl
  | cons q qs ih =>
    simp only [List.map_cons, List.mem_cons, not_or] at h
    rw [upsertById, if_neg (fun he => h.1 he.symm), ih h.2]
    rfl

theorem upsertById_present (cache : List Prompt) (saved : Prompt)
    (hnodup : (cache.map Prompt.id).Nodup) (h : saved.id ∈ cache.map Prompt.id) :
    upsertById cache saved
      = cache.map (fun q => if q.id = saved.id then saved else q) := by
  induction cache with
  | nil => simp at h
  | cons q qs ih =>
    simp only [List.map_cons, List.nodup_cons] at hnodup
    by_cases hq : q.id = saved.id
    · rw [upsertById, if_pos hq]
      simp only [List.map_cons, if_pos hq]
      have hqs : qs.map (fun w => if w.id = saved.id then saved else w) = qs := by
        have : ∀ w ∈ qs, (if w.id = saved.id then saved else w) = w := by
          intro w hw
          rw [if_neg]
          intro hww
          exact hnodup.1 (hq ▸ hww ▸ List.mem_map_of_mem Prompt.id hw)
        calc qs.map (fun w => if w.id = saved.id then saved else w)
            = qs.map id := List.map_congr_left this
          _ = qs := List.map_id qs
      rw [hqs]
    · rw [upsertById, if_neg hq]
      simp only [List.map_cons, if_neg hq]
      simp only [List.map_cons, List.mem_cons] at h
      rcases h with h | h
      · exact absurd h.symm hq
      · rw [ih hnodup.2 h]

/-- C6: savePromptAsync and deletePromptAsync return a remote failure to the
caller with the cache exactly as it was; on success, save upserts the
server-returned entity into the cache — appended when no entry has its id,
replacing the entry with its id when one is present (ids being unique) —
and delete removes the entry with the given id, keeping exactly the entries
with a different id. -/
theorem savePromptAsync_deletePromptAsync_spec
    (updateRes createRes : Except Unit Prompt) (deleteRes : Except Unit Unit)
    (cache : List Prompt) (p saved : Prompt) (id : String) :
    (∀ e, (if cache.any (fun q => q.id == p.id) then updateRes else createRes)
        = Except.error e →
      savePromptAsync updateRes createRes cache p = (Except.error e, cache))
    ∧ ((if cache.any (fun q => q.id == p.id) then updateRes else createRes)
        = Except.ok saved →
      savePromptAsync updateRes createRes cache p
        = (Except.ok saved, upsertById cache saved))
    ∧ (saved.id ∉ cache.map Prompt.id →
        upsertById cache saved = cache ++ [saved])
    ∧ ((cache.map Prompt.id).Nodup → saved.id ∈ cache.map Prompt.id →
        upsertById cache saved
          = cache.map (fun q => if q.id = saved.id then saved else q))
    ∧ (∀ e, deleteRes = Except.error e →
      deletePromptAsync deleteRes cache id = (Except.error e, cache))
    ∧ (deleteRes = Except.ok () →
      deletePromptAsync deleteRes cache id
          = (Except.ok (), cache.filter (fun q => !(q.id == id)))
      ∧ ∀ q, q ∈ (deletePromptAsync deleteRes cache id).2 ↔ q ∈ cache ∧ q.id ≠ id) := by
  refine ⟨?_, ?_, upsertById_absent cache saved, upsertById_present cache saved,
    ?_, ?_⟩
  · intro e h
    unfold savePromptAsync
    rw [h]
  · intro h
    unfold savePromptAsync
    rw [h]
  · intro e h
    subst h
    rfl
  · intro h
    subst h
    refine ⟨rfl, ?_⟩
    intro q
    simp [deletePromptAsync, List.mem_filter]

/-- Witness for C6 at concrete inputs: a failed save leaves the cache
untouched and surfaces the failure; a successful save of a new id appends;
a successful delete filters the id out. -/
theorem savePromptAsync_deletePromptAsync_spec_witness :
    savePromptAsync (Except.error ()) (Except.error ()) [] promptA
      = (Except.error (), [])
    ∧ upsertById [] promptA = [promptA]
    ∧ deletePromptAsync (Except.ok ()) [promptA] "a" = (Except.ok (), []) := by
  have h := savePromptAsync_deletePromptAsync_spec (Except.error ())
    (Except.error ()) (Except.ok ()) [] promptA promptA "a"
  have h2 := savePromptAsync_deletePromptAsync_spec (Except.error ())
    (Except.error ()) (Except.ok ()) [promptA] promptA promptA "a"
  refine ⟨h.1 () (by rfl), ?_, ?_⟩
  · rw [h.2.2.1 (by decide)]
    decide
  · rw [(h2.2.2.2.2.2 rfl).1]
    rfl

/-- C7 counterexample: a listener newly registered through the service
module's subscription function receives nothing at registration — in
particular not the current state, although the current state is
connected — so replay-one semantics fails for this subscription function. -/
theorem serviceSubscription_no_replay :
    (ApiService.onConnectionStatusChange ⟨ConnectionStatus.connected, []⟩ 0).2 = []
    ∧ (ApiService.onConnectionStatusChange ⟨ConnectionStatus.connected, []⟩ 0).2
        ≠ [(0, ConnectionStatus.connected)] := by
  exact ⟨rfl, by decide⟩

/-- C7 (amended): a listener registered through the bubble ApiClient
subscription receives exactly the current state immediately upon
registration, while a listener registered through the web service module's
subscription receives only future transitions; in both, registration
appends the listener, every state change is broadcast to every registered
listener, and a probe that leaves the state unchanged notifies nobody. -/
theorem connectionSubscription_spec (s : MonitorState) (lid : Nat)
    (st : ConnectionStatus) :
    (ApiClient.onConnectionStatusChange s lid).2 = [(lid, s.status)]
    ∧ (ApiClient.onConnectionStatusChange s lid).1.listeners = s.listeners ++ [lid]
    ∧ (ApiClient.onConnectionStatusChange s lid).1.status = s.status
    ∧ (ApiService.onConnectionStatusChange s lid).2 = []
    ∧ (ApiService.onConnectionStatusChange s lid).1.listeners = s.listeners ++ [lid]
    ∧ (ApiService.onConnectionStatusChange s lid).1.status = s.status
    ∧ (st ≠ s.status →
        (setConnectionStatus s st).2 = s.listeners.map (fun l => (l, st))
        ∧ (setConnectionStatus s st).1.status = st
        ∧ (setConnectionStatus s st).1.listeners = s.listeners)
    ∧ (st = s.status → setConnectionStatus s st = (s, [])) := by
  refine ⟨rfl, rfl, rfl, rfl, rfl, rfl, ?_, ?_⟩
  · intro hne
    have hcond : ¬s.status = st := fun h => hne h.symm
    refine ⟨?_, ?_, ?_⟩ <;> simp [setConnectionStatus, hcond]
  · intro heq
    simp [setConnectionStatus, heq]

/-- Witness for C7 at a concrete state: registration behaviour of both
subscriptions and a broadcast of a genuine transition to two listeners. -/
theorem connectionSubscription_spec_witness :
    (ApiClient.onConnectionStatusChange ⟨ConnectionStatus.checking, []⟩ 7).2
        = [(7, ConnectionStatus.checking)]
    ∧ (setConnectionStatus ⟨ConnectionStatus.checking, [1, 2]⟩
        ConnectionStatus.connected).2
        = [(1, ConnectionStatus.connected), (2, ConnectionStatus.connected)] := by
  have h := connectionSubscription_spec ⟨ConnectionStatus.checking, [1, 2]⟩ 7
    ConnectionStatus.connected
  refine ⟨(connectionSubscription_spec ⟨ConnectionStatus.checking, []⟩ 7
    ConnectionStatus.connected).1, ?_⟩
  rw [(h.2.2.2.2.2.2.1 (by decide)).1]
  rfl

/-- C8 counterexample: with an empty local cache and a caller passing one
prompt, the envelope built by exportData contains the caller's argument and
differs from the envelope the claim prescribes from the cache: exportData
does not read the local cache, it serializes its arguments. -/
theorem exportData_ignores_cache :
    (exportData 0 [promptA] []).prompts = [promptA]
    ∧ exportData 0 [promptA] [] ≠ exportDataClaimed 0 ⟨[], []⟩ := by
  exact ⟨rfl, by decide⟩

/-- C8 (amended): exportData returns an envelope with version 2, the
epoch-millisecond timestamp it is called at, and exactly the prompts and
folders arrays its caller passes; it reads neither the local cache nor the
remote store. -/
theorem exportData_spec (now : Nat) (prompts : List Prompt)
    (folders : List Folder) :
    (exportData now prompts folders).version = 2
    ∧ (exportData now prompts folders).exportedAt = now
    ∧ (exportData now prompts folders).prompts = prompts
    ∧ (exportData now prompts folders).folders = folders :=
  ⟨rfl, rfl, rfl, rfl⟩

/-- C9: the create-prompt route never rejects a body for missing fields: it
answers 201, and every absent field of the body is defaulted in the created
prompt — the title to the non-empty string New Prompt, tags and versions to
the empty list, the favorite and pinned flags to false, folderId to null,
the id to the clock value rendered as a string, and both timestamps to the
current time. -/
theorem createPromptRoute_defaults (now : Nat) (body : CreateBody) :
    (createPromptRoute now body).1 = 201
    ∧ (body.id = none → (createPromptRoute now body).2.id = toString now)
    ∧ (body.title = none → (createPromptRoute now body).2.title = "New Prompt"
        ∧ ("New Prompt" : String) ≠ "")
    ∧ (body.content = none → (createPromptRoute now body).2.content = "")
    ∧ (body.tags = none → (createPromptRoute now body).2.tags = [])
    ∧ (body.isFavorite = none → (createPromptRoute now body).2.isFavorite = false)
    ∧ (body.isPinned = none → (createPromptRoute now body).2.isPinned = false)
    ∧ (body.folderId = none → (createPromptRoute now body).2.folderId = none)
    ∧ (body.createdAt = none → (createPromptRoute now body).2.createdAt = now)
    ∧ (body.updatedAt = none → (createPromptRoute now body).2.updatedAt = now)
    ∧ (body.versions = none → (createPromptRoute now body).2.versions = []) := by
  refine ⟨rfl, ?_, ?_, ?_, ?_, ?_, ?_, ?_, ?_, ?_, ?_⟩ <;> intro h <;>
    simp [createPromptRoute, dbCreatePrompt, jsOrString, jsOrNat, jsOrFalse,
      jsOrNull, h]

/-- Witness for C9: the empty body is accepted with status 201 and every
field defaulted. -/
theorem createPromptRoute_defaults_witness :
    (createPromptRoute 7 emptyBody).1 = 201
    ∧ (createPromptRoute 7 emptyBody).2.title = "New Prompt"
    ∧ (createPromptRoute 7 emptyBody).2.tags = []
    ∧ (createPromptRoute 7 emptyBody).2.isFavorite = false
    ∧ (createPromptRoute 7 emptyBody).2.isPinned = false
    ∧ (createPromptRoute 7 emptyBody).2.folderId = none
    ∧ (createPromptRoute 7 emptyBody).2.versions = []
    ∧ (createPromptRoute 7 emptyBody).2.createdAt = 7
    ∧ (createPromptRoute 7 emptyBody).2.updatedAt = 7 := by
  have h := createPromptRoute_defaults 7 emptyBody
  exact ⟨h.1, (h.2.2.1 rfl).1, h.2.2.2.2.1 rfl, h.2.2.2.2.2.1 rfl,
    h.2.2.2.2.2.2.1 rfl, h.2.2.2.2.2.2.2.1 rfl, h.2.2.2.2.2.2.2.2.2.2 rfl,
    h.2.2.2.2.2.2.2.2.1 rfl, h.2.2.2.2.2.2.2.2.2.1 rfl⟩

/-- C10: called with the empty string, copyToClipboard returns false and
attempts neither tier; for non-empty text it returns true exactly when one
of the two tiers succeeds. -/
theorem copyToClipboard_spec (env : ClipboardEnv) (text : String) :
    copyToClipboard env "" = (false, [])
    ∧ (text ≠ "" →
        (copyToClipboard env text).1
          = (apiTierSucceeds env || fallbackTierSucceeds env)) := by
  constructor
  · rfl
  · intro h
    obtain ⟨hasApi, apiOk, fallbackThrows, execOk⟩ := env
    cases hasApi <;> cases apiOk <;> cases fallbackThrows <;> cases execOk <;>
      simp [copyToClipboard, apiTierSucceeds, fallbackTierSucceeds,
        fallbackCopy, h]

/-- Witness for C10: a non-empty text succeeds through the asynchronous
tier, and succeeds through the fallback tier when the first tier fails. -/
theorem copyToClipboard_spec_witness :
    (copyToClipboard ⟨true, true, false, false⟩ "x").1 = true
    ∧ (copyToClipboard ⟨true, false, false, true⟩ "x").1 = true := by
  constructor
  · rw [(copyToClipboard_spec ⟨true, true, false, false⟩ "x").2 (by decide)]
    rfl
  · rw [(copyToClipboard_spec ⟨true, false, false, true⟩ "x").2 (by decide)]
    rfl

end PromptVault

